import Mathlib

/-!
Verification development for the Gpro Serial Monitor application
(src/serial_monitor.py), a PySide6 GUI that reads lines from a serial
port on a background thread, queues them, and displays them in a
console widget.

The embedding is a shallow one: the `SerialMonitor` object state is a
Lean structure `SMState`, each Qt slot (`flush_queue`, `append_text`,
`send_text`, `connect_serial`, `disconnect_serial`, `save_log`) is a
pure state-transition function, and interactions with the outside
world (the pyserial library, the clock, the file dialog) are passed in
as explicit parameters describing the outcome of each library call.
Thread-level behaviour of the reader (`SerialReader.run`) is modelled
both as a pure function of the sequence of `readline` results and, for
the liveness invariant, as a small-step transition system over thread
configurations.
-/

/-- Queue entry produced by the reader thread and consumed by the UI
poll loop: an optional timestamp string and the decoded text.
Mirrors the tuples put on `self.queue` in src/serial_monitor.py. -/
abbrev Entry := Option String × String

/-- Characters stripped by Python `str.rstrip()` with no argument
(ASCII whitespace; the claims only involve these characters). -/
def pyIsSpace (c : Char) : Bool :=
  c = ' ' || c = '\t' || c = '\n' || c = '\r' || c = '\x0b' || c = '\x0c'

/-- Python `text.rstrip()`: remove all trailing whitespace characters. -/
def pyRstrip (s : String) : String :=
  String.mk ((s.data.reverse.dropWhile pyIsSpace).reverse)

/-- Python truthiness of the optional timestamp, as tested by
`if self.timestamps_chk.isChecked() and ts:` — `None` and the empty
string are falsy, every other string truthy. -/
def pyTruthy : Option String → Bool
  | none => false
  | some s => !s.isEmpty

/-- Format one drained queue entry as `flush_queue` does
(src/serial_monitor.py lines 276-279): with the timestamp toggle on
and a truthy timestamp the line is `[{ts}] {text.rstrip()}`, otherwise
just `text.rstrip()`. -/
def formatEntry (tsChk : Bool) (e : Entry) : String :=
  if tsChk && pyTruthy e.1 then
    "[" ++ e.1.getD "" ++ "] " ++ pyRstrip e.2
  else
    pyRstrip e.2

/-- Handle to an open OS serial connection (the pyserial object held
in `self.ser`); only its open/closed status is observable here. -/
structure Port where
  is_open : Bool
deriving Repr, DecidableEq

/-- State of the `SerialMonitor` window: the fields of the Python
object together with the observable widget state touched by the
claims. `cursorAtEnd` models whether the console view was moved to the
end (autoscroll). -/
structure SMState where
  ser : Option Port
  reader : Option Unit
  queue : List Entry
  stopEvent : Bool
  console : List String
  statusMsg : String
  connectBtnText : String
  portBoxEnabled : Bool
  sendEdit : String
  eolSel : String
  timestampsChk : Bool
  autoscrollChk : Bool
  keepTextChk : Bool
  cursorAtEnd : Bool

/-- Loop body of `flush_queue`: repeatedly `get_nowait` until the
queue is empty, appending each formatted entry to the console and
recording that something was appended. -/
def flushGo (tsChk : Bool) : List Entry → List String → Bool → List String × Bool
  | [], console, appended => (console, appended)
  | e :: rest, console, _ => flushGo tsChk rest (console ++ [formatEntry tsChk e]) true

/-- Slot `SerialMonitor.flush_queue` (src/serial_monitor.py lines
269-285): drain the queue in one non-blocking pass, append each entry
to the console, and if anything was appended and autoscroll is on,
move the cursor to the end. -/
def flush_queue (s : SMState) : SMState :=
  let r := flushGo s.timestampsChk s.queue s.console false
  { s with queue := [],
           console := r.1,
           cursorAtEnd := if r.2 && s.autoscrollChk then true else s.cursorAtEnd }

/-- Helper `SerialMonitor.append_text` (src/serial_monitor.py lines
287-292): append one rstripped line to the console, autoscrolling if
enabled. -/
def append_text (s : SMState) (text : String) : SMState :=
  { s with console := s.console ++ [pyRstrip text],
           cursorAtEnd := if s.autoscrollChk then true else s.cursorAtEnd }

/-- Whether a string ends in a whitespace character. -/
def endsInWs (s : String) : Bool :=
  match s.data.getLast? with
  | some c => pyIsSpace c
  | none => false

theorem flushGo_spec (tsChk : Bool) (q : List Entry) (console : List String) (b : Bool) :
    flushGo tsChk q console b = (console ++ q.map (formatEntry tsChk), b || !q.isEmpty) := by
  induction q generalizing console b with
  | nil => simp [flushGo]
  | cons e rest ih => simp [flushGo, ih]

/-- C1: `flush_queue` drains all currently queued entries in one pass
and appends them to the console in exactly the enqueue order — the new
console is the old console followed by the formatted entries in queue
order (hence no entry is lost, duplicated, or reordered), and the
queue is left empty. -/
theorem flush_queue_fifo (s : SMState) :
    (flush_queue s).console = s.console ++ s.queue.map (formatEntry s.timestampsChk) ∧
    (flush_queue s).queue = [] := by
  constructor
  · simp [flush_queue, flushGo_spec]
  · rfl

theorem head_dropWhile_false (p : Char → Bool) :
    ∀ (l : List Char) (c : Char), (l.dropWhile p).head? = some c → p c = false := by
  intro l
  induction l with
  | nil => intro c h; simp [List.dropWhile] at h
  | cons a as ih =>
    intro c h
    by_cases hp : p a
    · rw [List.dropWhile_cons_of_pos hp] at h
      exact ih c h
    · rw [List.dropWhile_cons_of_neg hp] at h
      simp at h
      subst h
      simpa using hp

theorem getLast?_rev (l : List Char) : l.reverse.getLast? = l.head? := by
  cases l <;> simp

theorem pyRstrip_no_trailing_ws (t : String) : endsInWs (pyRstrip t) = false := by
  show (match ((t.data.reverse.dropWhile pyIsSpace).reverse).getLast? with
        | some c => pyIsSpace c
        | none => false) = false
  rw [getLast?_rev]
  cases h : (t.data.reverse.dropWhile pyIsSpace).head? with
  | none => rfl
  | some c => simpa using head_dropWhile_false pyIsSpace _ c h

theorem endsInWs_append (a b : String) (h : b ≠ "") : endsInWs (a ++ b) = endsInWs b := by
  have hd : b.data ≠ [] := by
    intro hnil
    apply h
    cases b
    simp at hnil
    simp [hnil]
  show (match ((a ++ b).data).getLast? with
        | some c => pyIsSpace c
        | none => false) = endsInWs b
  rw [String.data_append, List.getLast?_append]
  cases hh : b.data.getLast? with
  | none => exact absurd (List.getLast?_eq_none_iff.mp hh) hd
  | some c => simp [endsInWs, hh]

/-- Concrete counterexample for C9: a queue entry whose text is only
whitespace, drained while the timestamp toggle is on, is displayed as
`[00:00:00.000] ` — a line that ends in a space — rather than as an
empty line. -/
theorem formatEntry_whitespace_only_counterexample :
    formatEntry true (some "00:00:00.000", " \n") = "[00:00:00.000] " ∧
    endsInWs "[00:00:00.000] " = true := by
  constructor <;> decide

/-- C9 (amended): every console line has the trailing whitespace of
its text removed: `append_text` lines and untimestamped drained
entries are exactly `text.rstrip()` and never end in whitespace (a
whitespace-only text becomes an empty line); a timestamped drained
entry is `[{ts}] {text.rstrip()}`, which ends in whitespace exactly
when the stripped text is empty (the separator space remains). -/
theorem console_lines_rstripped :
    (∀ t : String, endsInWs (pyRstrip t) = false) ∧
    (∀ (tsChk : Bool) (ts : Option String) (text : String),
        (tsChk && pyTruthy ts) = false → formatEntry tsChk (ts, text) = pyRstrip text) ∧
    (∀ text : String, text.data.all pyIsSpace = true → pyRstrip text = "") ∧
    (∀ (ts text : String), pyTruthy (some ts) = true →
        formatEntry true (some ts, text) = "[" ++ ts ++ "] " ++ pyRstrip text ∧
        (pyRstrip text ≠ "" → endsInWs (formatEntry true (some ts, text)) = false) ∧
        (pyRstrip text = "" → endsInWs (formatEntry true (some ts, text)) = true)) ∧
    (∀ (s : SMState) (t : String), (append_text s t).console = s.console ++ [pyRstrip t]) := by
  refine ⟨pyRstrip_no_trailing_ws, ?_, ?_, ?_, ?_⟩
  · intro tsChk ts text hfalse
    simp [formatEntry, hfalse]
  · intro text hall
    have : text.data.reverse.dropWhile pyIsSpace = [] := by
      rw [List.dropWhile_eq_nil_iff]
      intro x hx
      simp only [List.all_eq_true] at hall
      exact hall x (List.mem_reverse.mp hx)
    simp [pyRstrip, this]
  · intro ts text htruthy
    have hfmt : formatEntry true (some ts, text) = "[" ++ ts ++ "] " ++ pyRstrip text := by
      simp [formatEntry, htruthy]
    refine ⟨hfmt, ?_, ?_⟩
    · intro hne
      rw [hfmt, endsInWs_append _ _ hne]
      exact pyRstrip_no_trailing_ws text
    · intro hemp
      rw [hfmt, hemp]
      have e1 : ("[" ++ ts ++ "] " ++ "" : String) = ("[" ++ ts) ++ "] " := by
        simp [String.append_assoc]
      rw [e1, endsInWs_append ("[" ++ ts) "] " (by decide)]
      decide
  · intro s t
    rfl

/-- Witness instantiating C9 at concrete inputs. -/
theorem console_lines_rstripped_witness :
    formatEntry false (none, " x \n") = pyRstrip " x \n" ∧ pyRstrip " \t" = "" :=
  ⟨console_lines_rstripped.2.1 false none " x \n" (by decide),
   console_lines_rstripped.2.2.1 " \t" (by decide)⟩

/-- Whether a byte is a UTF-8 continuation byte (0x80-0xBF). -/
def isCont (b : Nat) : Bool :=
  decide (128 ≤ b) && decide (b < 192)

/-- Unicode replacement character U+FFFD, substituted by
`bytes.decode(errors="replace")` for undecodable bytes. -/
def replChar : Char := Char.ofNat 0xFFFD

/-- Fuel-indexed UTF-8 decoder with replacement, modelling the CPython
`bytes.decode(errors="replace")` call in `SerialReader.run`: valid
sequences (including the overlong/surrogate range checks of a strict
UTF-8 decoder) decode to their code point, undecodable bytes become
U+FFFD. The fuel argument makes the recursion structural; it is always
called with fuel at least the length of the list. The exact number of
replacement characters emitted for a malformed multi-byte sequence is
not load-bearing for any claim. -/
def utf8DecodeGo : Nat → List Nat → List Char
  | 0, _ => []
  | _ + 1, [] => []
  | fuel + 1, b1 :: rest =>
    if b1 < 128 then Char.ofNat b1 :: utf8DecodeGo fuel rest
    else if b1 < 194 then replChar :: utf8DecodeGo fuel rest
    else if b1 < 224 then
      match rest with
      | b2 :: rest2 =>
        if isCont b2 then Char.ofNat ((b1 - 192) * 64 + (b2 - 128)) :: utf8DecodeGo fuel rest2
        else replChar :: utf8DecodeGo fuel (b2 :: rest2)
      | [] => [replChar]
    else if b1 < 240 then
      match rest with
      | b2 :: b3 :: rest3 =>
        if isCont b2 && isCont b3 && (decide (b1 ≠ 224) || decide (160 ≤ b2))
            && (decide (b1 ≠ 237) || decide (b2 < 160)) then
          Char.ofNat ((b1 - 224) * 4096 + (b2 - 128) * 64 + (b3 - 128)) :: utf8DecodeGo fuel rest3
        else replChar :: utf8DecodeGo fuel (b2 :: b3 :: rest3)
      | [b2] => replChar :: utf8DecodeGo fuel [b2]
      | [] => [replChar]
    else if b1 < 245 then
      match rest with
      | b2 :: b3 :: b4 :: rest4 =>
        if isCont b2 && isCont b3 && isCont b4 && (decide (b1 ≠ 240) || decide (144 ≤ b2))
            && (decide (b1 ≠ 244) || decide (b2 < 144)) then
          Char.ofNat ((b1 - 240) * 262144 + (b2 - 128) * 4096 + (b3 - 128) * 64 + (b4 - 128))
            :: utf8DecodeGo fuel rest4
        else replChar :: utf8DecodeGo fuel (b2 :: b3 :: b4 :: rest4)
      | [b2, b3] => replChar :: utf8DecodeGo fuel [b2, b3]
      | [b2] => replChar :: utf8DecodeGo fuel [b2]
      | [] => [replChar]
    else replChar :: utf8DecodeGo fuel rest

/-- Python `bytes.decode(errors="replace")` on a byte list. -/
def utf8DecodeReplace (l : List Nat) : List Char :=
  utf8DecodeGo l.length l

example : utf8DecodeReplace [65, 66] = ['A', 'B'] := by decide

theorem utf8DecodeGo_fuel : ∀ (fuel fuel2 : Nat) (l : List Nat),
    l.length ≤ fuel → l.length ≤ fuel2 → utf8DecodeGo fuel l = utf8DecodeGo fuel2 l := by
  intro fuel
  induction fuel with
  | zero =>
    intro fuel2 l h _
    have hl : l = [] := List.eq_nil_of_length_eq_zero (Nat.le_zero.mp h)
    subst hl
    cases fuel2 <;> rfl
  | succ f ih =>
    intro fuel2 l h h2
    cases fuel2 with
    | zero =>
      have hl : l = [] := List.eq_nil_of_length_eq_zero (Nat.le_zero.mp h2)
      subst hl
      rfl
    | succ f2 =>
      cases l with
      | nil => rfl
      | cons b1 rest =>
        simp only [List.length_cons, Nat.add_le_add_iff_right] at h h2
        simp only [utf8DecodeGo]
        repeat' split
        all_goals first
          | rfl
          | (congr 1
             apply ih f2 <;> simp_all <;> omega)

/-- UTF-8 encoding of a single character (1-4 bytes). -/
def encodeChar (c : Char) : List Nat :=
  if c.toNat < 128 then [c.toNat]
  else if c.toNat < 2048 then [192 + c.toNat / 64, 128 + c.toNat % 64]
  else if c.toNat < 65536 then
    [224 + c.toNat / 4096, 128 + c.toNat / 64 % 64, 128 + c.toNat % 64]
  else
    [240 + c.toNat / 262144, 128 + c.toNat / 4096 % 64, 128 + c.toNat / 64 % 64, 128 + c.toNat % 64]

/-- Python `str.encode(errors="replace")` (UTF-8): since Lean strings
contain no lone surrogates, encoding is total and never replaces. -/
def utf8Encode (s : String) : List Nat :=
  s.data.flatMap encodeChar

theorem utf8DecodeReplace_cons (c : Char) (bs : List Nat) :
    utf8DecodeReplace (encodeChar c ++ bs) = c :: utf8DecodeReplace bs := by
  have hv : c.toNat < 55296 ∨ (57343 < c.toNat ∧ c.toNat < 1114112) := c.valid
  by_cases h1 : c.toNat < 128
  · have he : encodeChar c = [c.toNat] := by rw [encodeChar, if_pos h1]
    rw [he]
    show utf8DecodeGo (bs.length + 1) (c.toNat :: bs) = c :: utf8DecodeGo bs.length bs
    simp only [utf8DecodeGo]
    rw [if_pos h1, Char.ofNat_toNat]
  · by_cases h2 : c.toNat < 2048
    · have he : encodeChar c = [192 + c.toNat / 64, 128 + c.toNat % 64] := by
        rw [encodeChar, if_neg h1, if_pos h2]
      rw [he]
      show utf8DecodeGo (bs.length + 1 + 1) ((192 + c.toNat / 64) :: (128 + c.toNat % 64) :: bs)
          = c :: utf8DecodeGo bs.length bs
      simp only [utf8DecodeGo]
      rw [if_neg (by omega), if_neg (by omega), if_pos (by omega)]
      have hcont : isCont (128 + c.toNat % 64) = true := by
        simp only [isCont, Bool.and_eq_true, decide_eq_true_eq]
        omega
      rw [if_pos hcont]
      have harith : (192 + c.toNat / 64 - 192) * 64 + (128 + c.toNat % 64 - 128) = c.toNat := by
        omega
      rw [harith, Char.ofNat_toNat,
          utf8DecodeGo_fuel (bs.length + 1) bs.length bs (by omega) (Nat.le_refl _)]
    · by_cases h3 : c.toNat < 65536
      · have he : encodeChar c
            = [224 + c.toNat / 4096, 128 + c.toNat / 64 % 64, 128 + c.toNat % 64] := by
          rw [encodeChar, if_neg h1, if_neg h2, if_pos h3]
        rw [he]
        show utf8DecodeGo (bs.length + 1 + 1 + 1)
            ((224 + c.toNat / 4096) :: (128 + c.toNat / 64 % 64) :: (128 + c.toNat % 64) :: bs)
            = c :: utf8DecodeGo bs.length bs
        simp only [utf8DecodeGo]
        rw [if_neg (by omega), if_neg (by omega), if_neg (by omega), if_pos (by omega)]
        have hcond : (isCont (128 + c.toNat / 64 % 64) && isCont (128 + c.toNat % 64)
            && (decide (224 + c.toNat / 4096 ≠ 224) || decide (160 ≤ 128 + c.toNat / 64 % 64))
            && (decide (224 + c.toNat / 4096 ≠ 237) || decide (128 + c.toNat / 64 % 64 < 160)))
            = true := by
          simp only [isCont, Bool.and_eq_true, Bool.or_eq_true, decide_eq_true_eq]
          omega
        rw [if_pos hcond]
        have harith : (224 + c.toNat / 4096 - 224) * 4096 + (128 + c.toNat / 64 % 64 - 128) * 64
            + (128 + c.toNat % 64 - 128) = c.toNat := by
          omega
        rw [harith, Char.ofNat_toNat,
            utf8DecodeGo_fuel (bs.length + 1 + 1) bs.length bs (by omega) (Nat.le_refl _)]
      · have he : encodeChar c
            = [240 + c.toNat / 262144, 128 + c.toNat / 4096 % 64, 128 + c.toNat / 64 % 64,
               128 + c.toNat % 64] := by
          rw [encodeChar, if_neg h1, if_neg h2, if_neg h3]
        rw [he]
        show utf8DecodeGo (bs.length + 1 + 1 + 1 + 1)
            ((240 + c.toNat / 262144) :: (128 + c.toNat / 4096 % 64) :: (128 + c.toNat / 64 % 64)
              :: (128 + c.toNat % 64) :: bs)
            = c :: utf8DecodeGo bs.length bs
        simp only [utf8DecodeGo]
        rw [if_neg (by omega), if_neg (by omega), if_neg (by omega), if_neg (by omega),
            if_pos (by omega)]
        have hcond : (isCont (128 + c.toNat / 4096 % 64) && isCont (128 + c.toNat / 64 % 64)
            && isCont (128 + c.toNat % 64)
            && (decide (240 + c.toNat / 262144 ≠ 240) || decide (144 ≤ 128 + c.toNat / 4096 % 64))
            && (decide (240 + c.toNat / 262144 ≠ 244) || decide (128 + c.toNat / 4096 % 64 < 144)))
            = true := by
          simp only [isCont, Bool.and_eq_true, Bool.or_eq_true, decide_eq_true_eq]
          omega
        rw [if_pos hcond]
        have harith : (240 + c.toNat / 262144 - 240) * 262144 + (128 + c.toNat / 4096 % 64 - 128) * 4096
            + (128 + c.toNat / 64 % 64 - 128) * 64 + (128 + c.toNat % 64 - 128) = c.toNat := by
          omega
        rw [harith, Char.ofNat_toNat,
            utf8DecodeGo_fuel (bs.length + 1 + 1 + 1) bs.length bs (by omega) (Nat.le_refl _)]

theorem utf8_flatMap_roundtrip : ∀ l : List Char, utf8DecodeReplace (l.flatMap encodeChar) = l := by
  intro l
  induction l with
  | nil => rfl
  | cons c cs ih =>
    rw [List.flatMap_cons, utf8DecodeReplace_cons, ih]

theorem utf8_roundtrip (s : String) : utf8DecodeReplace (utf8Encode s) = s.data :=
  utf8_flatMap_roundtrip s.data

/-- Decimal digit character for `n % 10`. -/
def tsDigit (n : Nat) : Char :=
  Char.ofNat (48 + n % 10)

/-- Two-digit zero-padded field of `strftime` (hours, minutes, seconds). -/
def pad2Chars (n : Nat) : List Char :=
  [tsDigit (n / 10), tsDigit n]

/-- Six-digit zero-padded microsecond field of `strftime` (`%f`). -/
def pad6Chars (n : Nat) : List Char :=
  [tsDigit (n / 100000), tsDigit (n / 10000), tsDigit (n / 1000),
   tsDigit (n / 100), tsDigit (n / 10), tsDigit n]

/-- Wall-clock reading taken by `datetime.datetime.now()`: hour,
minute, second and microsecond fields. -/
structure WallClock where
  hour : Nat
  minute : Nat
  second : Nat
  micro : Nat

/-- Python `now.strftime("%H:%M:%S.%f")`. -/
def strftimeHMSf (t : WallClock) : String :=
  String.mk (pad2Chars t.hour ++ [':'] ++ pad2Chars t.minute ++ [':']
    ++ pad2Chars t.second ++ ['.'] ++ pad6Chars t.micro)

/-- Python slice `s[:-3]`: drop the final three characters. -/
def pyDropLast3 (s : String) : String :=
  String.mk s.data.dropLast.dropLast.dropLast

/-- Timestamp attached by `SerialReader.run` (src/serial_monitor.py
line 67): `datetime.datetime.now().strftime("%H:%M:%S.%f")[:-3]`,
i.e. `HH:MM:SS.mmm` with millisecond precision. -/
def readerTimestamp (t : WallClock) : String :=
  pyDropLast3 (strftimeHMSf t)

/-- Outcome of one `self.ser.readline()` call inside the reader loop:
either bytes (possibly empty) received at a given wall-clock time, or
an I/O error carrying its message. -/
inductive ReadResult where
  | ok (bytes : List Nat) (now : WallClock)
  | ioError (msg : String)

/-- Thread body `SerialReader.run` (src/serial_monitor.py lines
58-71) as a function of the sequence of `readline` outcomes while the
loop runs: a non-empty read is decoded with replacement, timestamped,
and enqueued; an empty read is skipped; an I/O error enqueues one
`(None, "[ERROR] ...")` entry and breaks out of the loop. Exhaustion
of the outcome list models the stop flag becoming set. The returned
list is the sequence of entries put on the queue, in order. -/
def readerRun : List ReadResult → List Entry
  | [] => []
  | .ok bytes now :: rest =>
    if bytes.isEmpty then readerRun rest
    else (some (readerTimestamp now), String.mk (utf8DecodeReplace bytes)) :: readerRun rest
  | .ioError msg :: _ => [(none, "[ERROR] " ++ msg ++ "\n")]

theorem readerTimestamp_explicit (t : WallClock) :
    readerTimestamp t
      = String.mk (pad2Chars t.hour ++ [':'] ++ pad2Chars t.minute ++ [':']
          ++ pad2Chars t.second ++ ['.']
          ++ [tsDigit (t.micro / 100000), tsDigit (t.micro / 10000), tsDigit (t.micro / 1000)]) :=
  rfl

/-- C3: each iteration of the reader loop enqueues, for a non-empty
read, exactly one `(timestamp, text)` pair with the bytes decoded with
replacement; an empty read enqueues nothing; an I/O error enqueues
exactly one entry with absent timestamp carrying the error text and
terminates the loop, ignoring the rest of the schedule (no retry).
The timestamp has millisecond precision: it is a 12-character
`HH:MM:SS.mmm` string depending only on the microsecond field divided
by 1000. -/
theorem reader_loop_step :
    (∀ (bytes : List Nat) (now : WallClock) (rest : List ReadResult), bytes ≠ [] →
        readerRun (.ok bytes now :: rest)
          = (some (readerTimestamp now), String.mk (utf8DecodeReplace bytes))
              :: readerRun rest) ∧
    (∀ (now : WallClock) (rest : List ReadResult),
        readerRun (.ok [] now :: rest) = readerRun rest) ∧
    (∀ (msg : String) (rest : List ReadResult),
        readerRun (.ioError msg :: rest) = [(none, "[ERROR] " ++ msg ++ "\n")]) ∧
    (∀ t : WallClock, (readerTimestamp t).length = 12) ∧
    (∀ t u : WallClock, t.hour = u.hour → t.minute = u.minute → t.second = u.second →
        t.micro / 1000 = u.micro / 1000 → readerTimestamp t = readerTimestamp u) := by
  refine ⟨?_, ?_, ?_, ?_, ?_⟩
  · intro bytes now rest hne
    rw [readerRun, if_neg (by simpa using hne)]
  · intro now rest
    rw [readerRun]
    rfl
  · intro msg rest
    rfl
  · intro t
    rfl
  · intro t u hh hm hs hq
    rw [readerTimestamp_explicit, readerTimestamp_explicit, hh, hm, hs]
    have e1 : t.micro / 100000 = u.micro / 100000 := by
      rw [← Nat.div_div_eq_div_mul t.micro 1000 100, ← Nat.div_div_eq_div_mul u.micro 1000 100, hq]
    have e2 : t.micro / 10000 = u.micro / 10000 := by
      rw [← Nat.div_div_eq_div_mul t.micro 1000 10, ← Nat.div_div_eq_div_mul u.micro 1000 10, hq]
    rw [e1, e2, hq]

/-- Witness instantiating C3 on a concrete schedule: one byte read of
`"OK"` at 12:34:56.789012, then an I/O error, then a further read that
is never taken. -/
theorem reader_loop_step_witness :
    readerRun [.ok [79, 75] ⟨12, 34, 56, 789012⟩]
      = [(some "12:34:56.789", "OK")] ∧
    readerRun [.ioError "boom", .ok [65] ⟨0, 0, 0, 0⟩]
      = [(none, "[ERROR] boom\n")] := by
  constructor
  · rw [reader_loop_step.1 [79, 75] ⟨12, 34, 56, 789012⟩ [] (by decide)]
    decide
  · rw [reader_loop_step.2.2.1 "boom" [.ok [65] ⟨0, 0, 0, 0⟩]]
    decide

/-- Line-ending suffix selected in the EOL combo box, as appended by
`send_text` (src/serial_monitor.py lines 299-305): the visible items
are the literal two-character strings so "\\n", "\\r", "\\r\\n" map to
the real control characters and anything else (the item "None") maps
to the empty suffix. -/
def eolSuffix (eol : String) : String :=
  if eol = "\\n" then "\n"
  else if eol = "\\r" then "\r"
  else if eol = "\\r\\n" then "\r\n"
  else ""

/-- Python truthiness of `self.ser and self.ser.is_open`. -/
def serOpen (s : SMState) : Bool :=
  match s.ser with
  | none => false
  | some p => p.is_open

/-- Slot `SerialMonitor.send_text` (src/serial_monitor.py lines
294-312). `writeErr` is the outcome of the `self.ser.write` call
(`none` on success, `some e` when it raises with message `e`).
Returns the new state together with the bytes handed to `write`
(`none` when nothing was transmitted). On success the input field is
cleared unless the keep-after-send toggle is checked; on failure an
error line goes to the console and nothing else changes. -/
def send_text (s : SMState) (writeErr : Option String) : SMState × Option (List Nat) :=
  if serOpen s then
    let data := s.sendEdit ++ eolSuffix s.eolSel
    match writeErr with
    | none =>
      ((if s.keepTextChk then s else { s with sendEdit := "" }), some (utf8Encode data))
    | some e => (append_text s ("[ERROR] send failed: " ++ e ++ "\n"), none)
  else
    ({ s with statusMsg := "Not connected" }, none)

/-- Slot `SerialMonitor.connect_serial` (src/serial_monitor.py lines
229-249), after the device and baud have been resolved from the
combo boxes. `openResult` is the outcome of the
`serial.Serial(device, baudrate=baud, timeout=0.2)` constructor; when
it raises, `self.ser` is not assigned. -/
def connect_serial (s : SMState) (portCount : Nat) (device : String) (baud : Nat)
    (openResult : Except String Port) : SMState :=
  if portCount = 0 then
    append_text s "[INFO] No ports to open.\n"
  else
    match openResult with
    | .error e =>
      { append_text s ("[ERROR] Could not open " ++ device ++ " @ " ++ toString baud
          ++ ": " ++ e ++ "\n") with
        statusMsg := "Failed to connect: " ++ e }
    | .ok p =>
      { s with ser := some p,
               stopEvent := false,
               reader := some (),
               connectBtnText := "Disconnect",
               portBoxEnabled := false,
               statusMsg := "Connected: " ++ device ++ " @ " ++ toString baud }

/-- Result of `self.ser.close()` on a port: when the call raises the
handle is conservatively left as it was, otherwise it is closed. -/
def closePort (p : Port) (closeRaises : Bool) : Port :=
  if closeRaises then p else { p with is_open := false }

/-- Slot `SerialMonitor.disconnect_serial` (src/serial_monitor.py
lines 251-267): set the stop flag and join the reader inside one
swallowed `try`, close the port inside a second swallowed `try`, then
unconditionally null the reader and port references and restore the
UI. `joinRaises` and `closeRaises` say whether the `join` and `close`
calls raise; both exceptions are swallowed, so the function returns
the disconnected state in every case. The second component is the
final state of the previously held port object. -/
def disconnect_serial (s : SMState) (_joinRaises : Bool) (closeRaises : Bool) :
    SMState × Option Port :=
  let finalPort : Option Port :=
    match s.ser with
    | some p => if p.is_open then some (closePort p closeRaises) else some p
    | none => none
  ({ s with stopEvent := true,
            reader := none,
            ser := none,
            connectBtnText := "Connect",
            portBoxEnabled := true,
            statusMsg := "Disconnected" }, finalPort)

/-- Console text as rendered by `QPlainTextEdit.toPlainText()`: the
appended paragraphs joined with newlines. -/
def toPlainText (console : List String) : String :=
  String.intercalate "\n" console

/-- Slot `SerialMonitor.save_log` (src/serial_monitor.py lines
317-327). `path` is the file name returned by the save dialog (empty
when cancelled); `writeErr` is the outcome of opening and writing the
file. Returns the new state and, when a write happened, the path and
the exact UTF-8 bytes written (`f.write` with `encoding="utf-8"`). -/
def save_log (s : SMState) (path : String) (writeErr : Option String) :
    SMState × Option (String × List Nat) :=
  if path.isEmpty then (s, none)
  else
    match writeErr with
    | none =>
      ({ s with statusMsg := "Saved: " ++ path },
       some (path, utf8Encode (toPlainText s.console)))
    | some e => ({ s with statusMsg := "Save failed: " ++ e }, none)

/-- State of the window right after `__init__` (src/serial_monitor.py
lines 84-143): no port, no reader, empty queue and console, timestamp
and autoscroll toggles on, keep-after-send off, EOL selector on
"None". -/
def initState : SMState where
  ser := none
  reader := none
  queue := []
  stopEvent := false
  console := []
  statusMsg := ""
  connectBtnText := "Connect"
  portBoxEnabled := true
  sendEdit := ""
  eolSel := "None"
  timestampsChk := true
  autoscrollChk := true
  keepTextChk := false
  cursorAtEnd := false

/-- Connected state used by concrete witnesses: an open port, a
running reader, text "AT" typed into the send box, EOL `\r\n`. -/
def connState : SMState :=
  { initState with ser := some ⟨true⟩, reader := some (), sendEdit := "AT", eolSel := "\\r\\n" }

/-- C2: with the port open, a successful `send_text` hands `write`
exactly the UTF-8 encoding of the typed text followed by the selected
line ending: for EOL `\r\n` and input "AT" exactly the four bytes
`A T \r \n`; for EOL "None" exactly the encoded typed text; and
appending the `\r\n` suffix always contributes exactly the two bytes
13, 10 after the encoded payload. -/
theorem send_text_transmits (s : SMState) (h : serOpen s = true) :
    (send_text s none).2 = some (utf8Encode (s.sendEdit ++ eolSuffix s.eolSel)) ∧
    (s.eolSel = "\\r\\n" → s.sendEdit = "AT" → (send_text s none).2 = some [65, 84, 13, 10]) ∧
    (s.eolSel = "None" → (send_text s none).2 = some (utf8Encode s.sendEdit)) ∧
    (∀ t : String, utf8Encode (t ++ eolSuffix "\\r\\n") = utf8Encode t ++ [13, 10]) := by
  refine ⟨?_, ?_, ?_, ?_⟩
  · simp [send_text, h]
  · intro he hd
    simp [send_text, h, he, hd]
    decide
  · intro he
    simp [send_text, h, he, eolSuffix]
  · intro t
    show (t ++ eolSuffix "\\r\\n").data.flatMap encodeChar
        = t.data.flatMap encodeChar ++ [13, 10]
    have h2 : (eolSuffix "\\r\\n").data.flatMap encodeChar = [13, 10] := by decide
    rw [String.data_append, List.flatMap_append, h2]

/-- Witness instantiating C2 at the concrete connected state. -/
theorem send_text_transmits_witness :
    (send_text connState none).2 = some [65, 84, 13, 10] :=
  (send_text_transmits connState (by decide)).2.1 rfl rfl

/-- C5: with the port open, a failing write appends an error line to
the console and changes nothing else — the port handle, the reader,
the stop flag and the input field are untouched, so the send can be
retried; the input field is cleared only by a successful write and
only when the keep-after-send toggle is unchecked. -/
theorem send_text_write_failure (s : SMState) (e : String) (h : serOpen s = true) :
    (send_text s (some e)).1.console
      = s.console ++ [pyRstrip ("[ERROR] send failed: " ++ e ++ "\n")] ∧
    (send_text s (some e)).1.ser = s.ser ∧
    (send_text s (some e)).1.reader = s.reader ∧
    (send_text s (some e)).1.stopEvent = s.stopEvent ∧
    (send_text s (some e)).1.sendEdit = s.sendEdit ∧
    (s.keepTextChk = false → (send_text s none).1.sendEdit = "") ∧
    (s.keepTextChk = true → (send_text s none).1.sendEdit = s.sendEdit) := by
  refine ⟨?_, ?_, ?_, ?_, ?_, ?_, ?_⟩
  · simp [send_text, h, append_text]
  · simp [send_text, h, append_text]
  · simp [send_text, h, append_text]
  · simp [send_text, h, append_text]
  · simp [send_text, h, append_text]
  · intro hk
    simp [send_text, h, hk]
  · intro hk
    simp [send_text, h, hk]

/-- Witness instantiating C5 at the concrete connected state. -/
theorem send_text_write_failure_witness :
    (send_text connState (some "boom")).1.console = ["[ERROR] send failed: boom"] ∧
    (send_text connState (some "boom")).1.ser = some ⟨true⟩ ∧
    (send_text connState none).1.sendEdit = "" := by
  refine ⟨?_, ?_, ?_⟩
  · rw [(send_text_write_failure connState "boom" (by decide)).1]
    decide
  · rw [(send_text_write_failure connState "boom" (by decide)).2.1]
    rfl
  · exact (send_text_write_failure connState "boom" (by decide)).2.2.2.2.2.1 rfl

/-- C4: when there is at least one listed port, a failing
`serial.Serial` constructor leaves the controller disconnected — the
port reference, reader reference, connect button and port selector are
all unchanged — and surfaces the error both as a console line and as a
status message; a successful open clears the stop flag, installs the
new port and starts a reader. -/
theorem connect_serial_state (s : SMState) (n : Nat) (device : String) (baud : Nat)
    (hn : n ≠ 0) :
    (∀ e, (connect_serial s n device baud (.error e)).ser = s.ser ∧
          (connect_serial s n device baud (.error e)).reader = s.reader ∧
          (connect_serial s n device baud (.error e)).connectBtnText = s.connectBtnText ∧
          (connect_serial s n device baud (.error e)).portBoxEnabled = s.portBoxEnabled ∧
          (connect_serial s n device baud (.error e)).stopEvent = s.stopEvent ∧
          (connect_serial s n device baud (.error e)).console
            = s.console ++ [pyRstrip ("[ERROR] Could not open " ++ device ++ " @ "
                ++ toString baud ++ ": " ++ e ++ "\n")] ∧
          (connect_serial s n device baud (.error e)).statusMsg = "Failed to connect: " ++ e) ∧
    (∀ p, (connect_serial s n device baud (.ok p)).stopEvent = false ∧
          (connect_serial s n device baud (.ok p)).reader = some () ∧
          (connect_serial s n device baud (.ok p)).ser = some p ∧
          (connect_serial s n device baud (.ok p)).connectBtnText = "Disconnect" ∧
          (connect_serial s n device baud (.ok p)).portBoxEnabled = false) := by
  constructor
  · intro e
    refine ⟨?_, ?_, ?_, ?_, ?_, ?_, ?_⟩ <;> simp [connect_serial, hn, append_text]
  · intro p
    refine ⟨?_, ?_, ?_, ?_, ?_⟩ <;> simp [connect_serial, hn]

/-- Witness instantiating C4 at the freshly initialized state. -/
theorem connect_serial_state_witness :
    (connect_serial initState 1 "COM3" 115200 (.error "busy")).ser = none ∧
    (connect_serial initState 1 "COM3" 115200 (.error "busy")).statusMsg
      = "Failed to connect: busy" ∧
    (connect_serial initState 1 "COM3" 115200 (.ok ⟨true⟩)).stopEvent = false := by
  refine ⟨?_, ?_, ?_⟩
  · rw [((connect_serial_state initState 1 "COM3" 115200 (by decide)).1 "busy").1]
    rfl
  · exact ((connect_serial_state initState 1 "COM3" 115200 (by decide)).1 "busy").2.2.2.2.2.2
  · exact ((connect_serial_state initState 1 "COM3" 115200 (by decide)).2 ⟨true⟩).1

/-- C10: `disconnect_serial` unconditionally restores the
disconnected UI state — reader and port references `None`, connect
button reading "Connect", port selector enabled — even when `join` or
`close` raised; called when already disconnected it leaves those four
observables exactly as they were. -/
theorem disconnect_restores_ui (s : SMState) (j c : Bool) :
    (disconnect_serial s j c).1.reader = none ∧
    (disconnect_serial s j c).1.ser = none ∧
    (disconnect_serial s j c).1.connectBtnText = "Connect" ∧
    (disconnect_serial s j c).1.portBoxEnabled = true ∧
    (s.reader = none → s.ser = none → s.connectBtnText = "Connect" → s.portBoxEnabled = true →
      ((disconnect_serial s j c).1.reader = s.reader ∧
       (disconnect_serial s j c).1.ser = s.ser ∧
       (disconnect_serial s j c).1.connectBtnText = s.connectBtnText ∧
       (disconnect_serial s j c).1.portBoxEnabled = s.portBoxEnabled)) := by
  refine ⟨rfl, rfl, rfl, rfl, ?_⟩
  intro h1 h2 h3 h4
  exact ⟨h1.symm, h2.symm, h3.symm, h4.symm⟩

/-- Witness instantiating C10 at the already-disconnected initial
state with both teardown calls raising. -/
theorem disconnect_restores_ui_witness :
    (disconnect_serial initState true true).1.reader = initState.reader ∧
    (disconnect_serial initState true true).1.ser = initState.ser ∧
    (disconnect_serial initState true true).1.connectBtnText = initState.connectBtnText ∧
    (disconnect_serial initState true true).1.portBoxEnabled = initState.portBoxEnabled :=
  (disconnect_restores_ui initState true true).2.2.2.2 rfl rfl rfl rfl

/-- C8: when the user picked a path and the write succeeds, `save_log`
writes exactly the UTF-8 bytes of the currently displayed console text
(so decoding the file reproduces the same visible lines character for
character), leaves the console unchanged, and reports success in the
status bar; a failing write is reported only via the status message,
writes nothing, and leaves the console log unchanged. -/
theorem save_log_exact (s : SMState) (path : String) (hp : path.isEmpty = false) :
    (save_log s path none).2 = some (path, utf8Encode (toPlainText s.console)) ∧
    (save_log s path none).1.console = s.console ∧
    (save_log s path none).1.statusMsg = "Saved: " ++ path ∧
    utf8DecodeReplace (utf8Encode (toPlainText s.console)) = (toPlainText s.console).data ∧
    (∀ e, (save_log s path (some e)).1.console = s.console ∧
          (save_log s path (some e)).2 = none ∧
          (save_log s path (some e)).1.statusMsg = "Save failed: " ++ e) := by
  refine ⟨?_, ?_, ?_, utf8_roundtrip _, ?_⟩
  · simp [save_log, hp]
  · simp [save_log, hp]
  · simp [save_log, hp]
  · intro e
    refine ⟨?_, ?_, ?_⟩ <;> simp [save_log, hp]

/-- Witness instantiating C8 at a concrete two-line console. -/
theorem save_log_exact_witness :
    (save_log { initState with console := ["hello", "world"] } "log.txt" none).2
      = some ("log.txt", utf8Encode (toPlainText ["hello", "world"])) ∧
    (save_log { initState with console := ["hello", "world"] } "log.txt" (some "disk full")).1.statusMsg
      = "Save failed: disk full" :=
  ⟨(save_log_exact { initState with console := ["hello", "world"] } "log.txt" (by decide)).1,
   ((save_log_exact { initState with console := ["hello", "world"] } "log.txt"
      (by decide)).2.2.2.2 "disk full").2.2⟩

/-- Thread-level configuration for the reader-liveness invariant:
the shared `threading.Event` stop flag, the alive flag of every
`SerialReader` thread ever spawned (in spawn order), and whether the
controller currently holds an open port. -/
structure ThreadSys where
  stopEvent : Bool
  readers : List Bool
  connected : Bool
deriving Repr, DecidableEq

/-- Number of reader threads currently alive. -/
def aliveCount (s : ThreadSys) : Nat :=
  s.readers.count true

/-- Mark the most recently spawned reader as exited (what a completed
`self.reader.join(timeout=1.0)` certifies). -/
def markLastDead (l : List Bool) : List Bool :=
  l.set (l.length - 1) false

/-- Configuration at application start: stop flag clear, no reader
threads, disconnected. -/
def sysInit : ThreadSys := ⟨false, [], false⟩

/-- Interleaved small-step semantics of the connect/disconnect slots
and the reader threads (src/serial_monitor.py lines 229-267 and
58-71). A successful connect clears the shared stop flag and spawns a
new live reader; a failed connect changes nothing; disconnect sets the
stop flag and joins with a 1.0 s timeout — the join either observes
the reader exit (`joined = true`) or times out with the thread still
alive (`joined = false`), and the slot proceeds identically in both
cases; independently, any scheduled reader thread may exit (having
observed the stop flag, or after a read error on the closed port). -/
inductive SysStep : ThreadSys → ThreadSys → Prop
  | connectOk (s : ThreadSys) (h : s.connected = false) :
      SysStep s ⟨false, s.readers ++ [true], true⟩
  | connectFail (s : ThreadSys) (h : s.connected = false) :
      SysStep s s
  | disconnect (s : ThreadSys) (joined : Bool) (h : s.connected = true) :
      SysStep s ⟨true, if joined then markLastDead s.readers else s.readers, false⟩
  | readerExits (s : ThreadSys) (i : Nat) :
      SysStep s ⟨s.stopEvent, s.readers.set i false, s.connected⟩

/-- Restriction of `SysStep` to executions in which every disconnect's
bounded join actually observes the reader exit before returning (the
timing assumption the code relies on: the 0.2 s read timeout is well
below the 1.0 s join timeout). -/
inductive SysStepJoin : ThreadSys → ThreadSys → Prop
  | connectOk (s : ThreadSys) (h : s.connected = false) :
      SysStepJoin s ⟨false, s.readers ++ [true], true⟩
  | connectFail (s : ThreadSys) (h : s.connected = false) :
      SysStepJoin s s
  | disconnect (s : ThreadSys) (h : s.connected = true) :
      SysStepJoin s ⟨true, markLastDead s.readers, false⟩
  | readerExits (s : ThreadSys) (i : Nat) :
      SysStepJoin s ⟨s.stopEvent, s.readers.set i false, s.connected⟩

/-- Counterexample for C7: when a disconnect's join times out before
the old reader has observed the stop flag, the following connect
clears the shared stop flag and spawns a second reader while the first
is still alive — the configuration with two live readers is reachable
from the initial one. Concretely: connect, disconnect whose join times
out, connect again. -/
theorem two_live_readers_reachable :
    Relation.ReflTransGen SysStep sysInit ⟨false, [true, true], true⟩ ∧
    aliveCount ⟨false, [true, true], true⟩ = 2 := by
  constructor
  · have s1 : SysStep sysInit ⟨false, [true], true⟩ := SysStep.connectOk sysInit rfl
    have s2 : SysStep ⟨false, [true], true⟩ ⟨true, [true], false⟩ :=
      SysStep.disconnect ⟨false, [true], true⟩ false rfl
    have s3 : SysStep ⟨true, [true], false⟩ ⟨false, [true, true], true⟩ :=
      SysStep.connectOk ⟨true, [true], false⟩ rfl
    exact Relation.ReflTransGen.head s1 (Relation.ReflTransGen.head s2
      (Relation.ReflTransGen.single s3))
  · rfl

theorem count_true_le_one (l : List Bool) (h : ∀ b ∈ l.dropLast, b = false) :
    l.count true ≤ 1 := by
  induction l with
  | nil => simp
  | cons a t ih =>
    cases t with
    | nil => cases a <;> simp
    | cons x xs =>
      have ha : a = false := h a (by simp [List.dropLast])
      have ht : (x :: xs).count true ≤ 1 := by
        apply ih
        intro b hb
        exact h b (by simp [List.dropLast, hb])
      subst ha
      simpa using ht

theorem mem_markLastDead (l : List Bool) (h : ∀ b ∈ l.dropLast, b = false) :
    ∀ b ∈ markLastDead l, b = false := by
  induction l with
  | nil => intro b hb; simp [markLastDead] at hb
  | cons a t ih =>
    cases t with
    | nil =>
      intro b hb
      simp [markLastDead] at hb
      exact hb
    | cons x xs =>
      have ha : a = false := h a (by simp [List.dropLast])
      have hstep : markLastDead (a :: x :: xs) = a :: markLastDead (x :: xs) := by
        simp [markLastDead]
      intro b hb
      rw [hstep] at hb
      rcases List.mem_cons.mp hb with hb1 | hb2
      · rw [hb1, ha]
      · exact ih (fun c hc => h c (by simp [List.dropLast, hc])) b hb2

theorem dropLast_set_false (l : List Bool) (i : Nat) (h : ∀ b ∈ l.dropLast, b = false) :
    ∀ b ∈ (l.set i false).dropLast, b = false := by
  induction l generalizing i with
  | nil => intro b hb; simp at hb
  | cons a t ih =>
    cases i with
    | zero =>
      cases t with
      | nil => intro b hb; simp at hb
      | cons x xs =>
        intro b hb
        simp only [List.set, List.dropLast] at hb
        rcases List.mem_cons.mp hb with hb1 | hb2
        · exact hb1
        · exact h b (by simp [List.dropLast, hb2])
    | succ j =>
      cases t with
      | nil => intro b hb; simp at hb
      | cons x xs =>
        intro b hb
        simp only [List.set] at hb
        have hlen : (x :: xs).set j false ≠ [] := by
          intro hc
          have := congrArg List.length hc
          simp at this
        rw [List.dropLast_cons_of_ne_nil hlen] at hb
        rcases List.mem_cons.mp hb with hb1 | hb2
        · rw [hb1]
          exact h a (by simp [List.dropLast])
        · exact ih j (fun c hc => h c (by simp [List.dropLast, hc])) b hb2

theorem all_false_set (l : List Bool) (i : Nat) (h : ∀ b ∈ l, b = false) :
    ∀ b ∈ l.set i false, b = false := by
  intro b hb
  rcases List.mem_or_eq_of_mem_set hb with hb1 | hb2
  · exact h b hb1
  · exact hb2

/-- Invariant maintained by `SysStepJoin`: every reader but the most
recently spawned one has exited, and when disconnected all readers
have exited. -/
def ReaderInv (s : ThreadSys) : Prop :=
  (∀ b ∈ s.readers.dropLast, b = false) ∧
  (s.connected = false → ∀ b ∈ s.readers, b = false)

theorem readerInv_step (a b : ThreadSys) (hab : SysStepJoin a b) (ha : ReaderInv a) :
    ReaderInv b := by
  cases hab with
  | connectOk h =>
    refine ⟨?_, ?_⟩
    · intro x hx
      rw [List.dropLast_concat] at hx
      exact ha.2 h x hx
    · intro hc
      exact absurd hc (by simp)
  | connectFail h => exact ha
  | disconnect h =>
    refine ⟨?_, ?_⟩
    · exact dropLast_set_false a.readers (a.readers.length - 1) ha.1
    · intro _
      exact mem_markLastDead a.readers ha.1
  | readerExits i =>
    refine ⟨?_, ?_⟩
    · exact dropLast_set_false a.readers i ha.1
    · intro hc
      exact all_false_set a.readers i (ha.2 hc)

/-- C7 (amended): along every execution in which each disconnect's
bounded join completes — the previous reader observed the stop flag
and exited before the join returned, which is what the code's 0.2 s
read timeout against the 1.0 s join timeout is sized for — at most one
reader thread is alive in every reachable configuration; without that
timing assumption the code does not enforce the invariant (see the
counterexample). -/
theorem at_most_one_reader (c : ThreadSys)
    (h : Relation.ReflTransGen SysStepJoin sysInit c) :
    aliveCount c ≤ 1 := by
  have inv : ReaderInv c := by
    induction h with
    | refl => exact ⟨by intro b hb; simp [sysInit] at hb, by intro _ b hb; simp [sysInit] at hb⟩
    | tail hab hbc ih => exact readerInv_step _ _ hbc ih
  exact count_true_le_one c.readers inv.1
/-- Witness instantiating C7 (amended) on the concrete execution
connect–disconnect(join completes)–connect. -/
theorem at_most_one_reader_witness :
    aliveCount ⟨false, [false, true], true⟩ ≤ 1 := by
  have t1 : SysStepJoin sysInit ⟨false, [true], true⟩ := SysStepJoin.connectOk sysInit rfl
  have t2 : SysStepJoin ⟨false, [true], true⟩ ⟨true, [false], false⟩ :=
    SysStepJoin.disconnect ⟨false, [true], true⟩ rfl
  have t3 : SysStepJoin ⟨true, [false], false⟩ ⟨false, [false, true], true⟩ :=
    SysStepJoin.connectOk ⟨true, [false], false⟩ rfl
  exact at_most_one_reader ⟨false, [false, true], true⟩
    (Relation.ReflTransGen.head t1 (Relation.ReflTransGen.head t2
      (Relation.ReflTransGen.single t3)))

theorem readerInv_reachable (t : ThreadSys)
    (h : Relation.ReflTransGen SysStepJoin sysInit t) : ReaderInv t := by
  induction h with
  | refl => exact ⟨by intro b hb; simp [sysInit] at hb, by intro _ b hb; simp [sysInit] at hb⟩
  | tail hab hbc ih => exact readerInv_step _ _ hbc ih

/-- Concrete counterexample for C6: teardown is best-effort, not
guaranteed. First, a reader thread can still be running after
`disconnect_serial` returns: in the interleaved model the
configuration `⟨true, [true], false⟩` — disconnected, stop flag set,
but the single spawned reader still alive because the 1.0 s join
timed out before the thread was scheduled — is reachable from the
initial configuration. Second, when the `close` call itself raises,
the previously held port object is still open after the teardown. -/
theorem disconnect_incomplete_teardown_counterexample :
    Relation.ReflTransGen SysStep sysInit ⟨true, [true], false⟩ ∧
    aliveCount ⟨true, [true], false⟩ = 1 ∧
    (disconnect_serial connState true true).2 = some ⟨true⟩ ∧
    Port.is_open ⟨true⟩ = true := by
  refine ⟨?_, rfl, by decide, rfl⟩
  have s1 : SysStep sysInit ⟨false, [true], true⟩ := SysStep.connectOk sysInit rfl
  have s2 : SysStep ⟨false, [true], true⟩ ⟨true, [true], false⟩ :=
    SysStep.disconnect ⟨false, [true], true⟩ false rfl
  exact Relation.ReflTransGen.head s1 (Relation.ReflTransGen.single s2)

/-- C6 (amended): after `disconnect_serial`, from any prior state and
whatever the teardown calls do, the stop flag is set and the
controller holds no port handle and no reader reference; every
exception during teardown is swallowed — the resulting controller
state does not depend on whether `join` or `close` raised. The port
object ends closed provided the `close` call does not itself raise,
and the reader thread has exited provided the bounded join completed:
in every execution whose disconnects' joins complete, a disconnected
configuration has no live reader. Neither holds unconditionally (see
the counterexample). -/
theorem disconnect_teardown (s : SMState) (j c : Bool) :
    (disconnect_serial s j c).1.stopEvent = true ∧
    (disconnect_serial s j c).1.ser = none ∧
    (disconnect_serial s j c).1.reader = none ∧
    (c = false → ∀ p, (disconnect_serial s j c).2 = some p → p.is_open = false) ∧
    (∀ j2 c2 : Bool, (disconnect_serial s j c).1 = (disconnect_serial s j2 c2).1) ∧
    (∀ t : ThreadSys, Relation.ReflTransGen SysStepJoin sysInit t → t.connected = false →
        ∀ b ∈ t.readers, b = false) := by
  refine ⟨rfl, rfl, rfl, ?_, fun j2 c2 => rfl, ?_⟩
  · intro hc p hp
    subst hc
    cases hs : s.ser with
    | none => simp [disconnect_serial, hs] at hp
    | some p0 =>
      by_cases ho : p0.is_open
      · simp [disconnect_serial, hs, ho, closePort] at hp
        simp [← hp]
      · simp [disconnect_serial, hs, ho] at hp
        subst hp
        simpa using ho
  · intro t ht hconn
    exact (readerInv_reachable t ht).2 hconn

/-- Witness instantiating C6 (amended) at the concrete connected
state with a non-raising `close`, and on the concrete join-completes
execution connect then disconnect, whose disconnected configuration
`⟨true, [false], false⟩` has its one reader exited. -/
theorem disconnect_teardown_witness :
    (disconnect_serial connState true false).1.ser = none ∧
    (disconnect_serial connState true false).1.stopEvent = true ∧
    Port.is_open ⟨false⟩ = false ∧
    (false : Bool) = false :=
  ⟨(disconnect_teardown connState true false).2.1,
   (disconnect_teardown connState true false).1,
   (disconnect_teardown connState true false).2.2.2.1 rfl ⟨false⟩ (by decide),
   (disconnect_teardown connState true false).2.2.2.2.2 ⟨true, [false], false⟩
     (Relation.ReflTransGen.head (SysStepJoin.connectOk sysInit rfl)
       (Relation.ReflTransGen.single (SysStepJoin.disconnect ⟨false, [true], true⟩ rfl)))
     rfl false (by decide)⟩
